import Mathlib

/-!
Verification of the alembic-agent repository: shallow embedding of the two
wrapper classes `AlembicAgent` (src/alembic_agent/lib.py) and `Moonshine`
(src/moonshine/lib.py) together with the repository's only `env.py`
(src/moonshine/migrations/env.py), plus spec-modelled definitions for the
alembic collaborator pieces (path resolution, walk order, the transactional
runner) that the wrappers invoke.
-/

set_option autoImplicit false

namespace AlembicAgentSpec

/-! ### Python string helpers

The wrappers manipulate revision strings with `":" in revision`,
`revision.split(":", 2)`, `rev_range.strip().split(":")`.  We model these
over the character list of the string so that everything reduces. -/

/-- Python `":" in s` (for a single-character needle). -/
def containsChar (s : String) (c : Char) : Bool :=
  s.data.contains c

/-- Split a character list at every occurrence of `c` (Python `str.split(c)`). -/
def splitCharAux (c : Char) : List Char → List Char → List (List Char)
  | cur, [] => [cur.reverse]
  | cur, x :: xs =>
    if x == c then cur.reverse :: splitCharAux c [] xs
    else splitCharAux c (x :: cur) xs

/-- Python `s.split(":")`. -/
def splitColon (s : String) : List String :=
  (splitCharAux ':' [] s.data).map (fun l => ⟨l⟩)

/-- Python `a, b = s.split(":", 2)`: succeeds (with the two pieces) exactly
when the split yields two parts; otherwise unpacking raises `ValueError`.
(With two or more colons, `split(":", 2)` yields three parts and the
two-variable unpack fails, the same verdict this full split gives.) -/
def pySplitUnpack2 (s : String) : Option (String × String) :=
  match splitColon s with
  | [a, b] => some (a, b)
  | _ => none

/-- Python `s.strip()`. -/
def pyStrip (s : String) : String :=
  ⟨((s.data.dropWhile Char.isWhitespace).reverse.dropWhile Char.isWhitespace).reverse⟩

/-! ### Revision scripts and the revision graph

A `Script` is alembic's revision object as the wrappers see it: an id, the
`down_revision` parent ids, the `dependencies` ids, and the
`_db_current_indicator` attribute that `history` assigns
(`none` = attribute never set). -/

structure Script where
  revision : String
  down_revision : List String
  dependencies : List String
  dbCurrentIndicator : Option Bool
  deriving DecidableEq, Repr

abbrev ScriptDir := List Script

/-- All parent edges of a revision: `down_revision` plus `dependencies`. -/
def Script.allParentIds (s : Script) : List String :=
  s.down_revision ++ s.dependencies

def scriptIds (sd : ScriptDir) : List String :=
  sd.map (fun s => s.revision)

def findScript (sd : ScriptDir) (id : String) : Option Script :=
  sd.find? (fun s => s.revision == id)

def parentIdsOf (sd : ScriptDir) (id : String) : List String :=
  match findScript sd id with
  | some s => s.allParentIds
  | none => []

/-- One step of the ancestor closure: keep the set and add every parent. -/
def closureStep (sd : ScriptDir) (ids : List String) : List String :=
  (ids ++ ids.flatMap (parentIdsOf sd)).dedup

def closureN (sd : ScriptDir) : Nat → List String → List String
  | 0, ids => ids
  | n + 1, ids => closureN sd n (closureStep sd ids)

/-- Transitive ancestor closure (including the starting ids) along
`down_revision` and `dependencies` edges; `sd.length + 1` rounds suffice
to reach the fixpoint on any graph over `sd`. -/
def ancClosure (sd : ScriptDir) (ids : List String) : List String :=
  closureN sd (sd.length + 1) ids

/-- Revisions with no child revision (graph heads). -/
def headsOf (sd : ScriptDir) : List String :=
  (scriptIds sd).filter (fun id => !(sd.any (fun s => s.allParentIds.contains id)))

/-! ### Walk order

`ScriptDirectory.walk_revisions(base, head)` is the alembic collaborator's
iterator: per its documented contract it iterates the revisions of the
range from the head revision down towards the base, i.e. each revision is
yielded before any of its parents.  We model it as the reverse of a
deterministic oldest-first (parents-first) topological order: repeatedly
emit the first remaining script, in load order, none of whose parents is
still remaining. -/

def kahnReady (rem : ScriptDir) (s : Script) : Bool :=
  s.allParentIds.all (fun p => !(decide (p ∈ scriptIds rem)))

def kahnGo : Nat → ScriptDir → ScriptDir
  | 0, rem => rem
  | n + 1, rem =>
    match rem.find? (kahnReady rem) with
    | none => rem
    | some s => s :: kahnGo n (rem.erase s)

/-- Deterministic parents-first (oldest-first) topological order. -/
def topoOldestFirst (sd : ScriptDir) : ScriptDir :=
  kahnGo sd.length sd

/-- A walk bound as `walk_revisions` receives it: either a symbolic/concrete
revision string or a tuple of Script objects (the `"current"` dispatch in
`history` passes `self.current`, a tuple of Scripts, directly). -/
inductive WalkSpec where
  | str (s : String)
  | revs (rs : List Script)
  deriving DecidableEq, Repr

def walkHeadIds (sd : ScriptDir) : WalkSpec → List String
  | .str "heads" => scriptIds sd
  | .str h => [h]
  | .revs rs => scriptIds rs

def walkBaseCut (sd : ScriptDir) : WalkSpec → List String
  | .str "base" => []
  | .str b => ancClosure sd (parentIdsOf sd b)
  | .revs rs => ancClosure sd (rs.flatMap Script.allParentIds)

/-- The ids inside the `base..head` range: ancestors of the head bound
(inclusive) minus strict ancestors of the base bound. -/
def walkScopeIds (sd : ScriptDir) (base head : WalkSpec) : List String :=
  let upper := ancClosure sd (walkHeadIds sd head)
  let below := walkBaseCut sd base
  upper.filter (fun id => !(below.contains id))

/-- Modelled alembic collaborator: `walk_revisions(base, head)` yields the
revisions of the range from head down to base (newest first). -/
def walkRevisions (sd : ScriptDir) (base head : WalkSpec) : List Script :=
  (topoOldestFirst (sd.filter
    (fun s => (walkScopeIds sd base head).contains s.revision))).reverse

/-! ### The `history` command of the two wrapper classes

Both classes implement `history(rev_range, indicate_current)` with nested
closures `_display_history` / `_display_history_w_current`.  They differ in
exactly two places inside `_display_history`:

* `AlembicAgent` collects with `history.insert(0, sc)` (reversing the walk
  into oldest-first order); `Moonshine` collects with `history.append(sc)`
  (keeping the head-to-base walk order).
* `AlembicAgent` tests `sc in currents` (Script-object membership);
  `Moonshine` tests `sc.revision in currents`, a revision-id string against
  a tuple of Script objects, which is always false in Python.

Both assign `sc._db_current_indicator = ...` on the Script object itself,
so the script directory after the call carries the flags: we thread the
directory through and return the updated one alongside the history list. -/

/-- Python `sc.revision in currents` where `currents` is a tuple of Script
objects: a `str` never equals a `Script`, so membership is always false. -/
def strInScripts (_id : String) (_currents : List Script) : Bool :=
  false

/-- `sc._db_current_indicator = flag`. -/
def setIndicator (s : Script) (b : Bool) : Script :=
  { s with dbCurrentIndicator := some b }

/-- Assigning to `sc._db_current_indicator` mutates the Script object held
by the script directory; update the stored script with that id. -/
def mutateDir (sd : ScriptDir) (id : String) (b : Bool) : ScriptDir :=
  sd.map (fun t => if t.revision == id then setIndicator t b else t)

/-- `script_directory.get_revisions(ids)`. -/
def getRevisions (sd : ScriptDir) (ids : List String) : List Script :=
  ids.filterMap (findScript sd)

/-- An argument to `_display_history`'s `base`/`head` parameters: `None`,
a string, or (via the `"current"` dispatch) a tuple of Scripts. -/
inductive WalkArg where
  | noneArg
  | str (s : String)
  | revs (rs : List Script)
  deriving DecidableEq, Repr

/-- Python `base or "base"`: `None`, `""` and the empty tuple are falsy. -/
def WalkArg.orDefault : WalkArg → String → WalkSpec
  | .noneArg, d => .str d
  | .str "", d => .str d
  | .str s, _ => .str s
  | .revs [], d => .str d
  | .revs rs, _ => .revs rs

def optWalkArg : Option String → WalkArg
  | none => .noneArg
  | some s => .str s

/-- The value `AlembicAgent`'s `_display_history` leaves in a walked
script: when `indicate_current`, assign
`sc._db_current_indicator = sc in currents` (Script-object membership). -/
def agentMark (indicate_current : Bool) (currents : List Script)
    (sc : Script) : Script :=
  if indicate_current then setIndicator sc (decide (sc ∈ currents)) else sc

/-- The corresponding script-directory update (the assignment mutates the
stored Script object). -/
def agentRecord (indicate_current : Bool) (currents : List Script)
    (d : ScriptDir) (sc : Script) : ScriptDir :=
  if indicate_current then mutateDir d sc.revision (decide (sc ∈ currents)) else d

/-- `Moonshine`'s `_display_history` assigns
`sc._db_current_indicator = sc.revision in currents` instead. -/
def moonshineMark (indicate_current : Bool) (currents : List Script)
    (sc : Script) : Script :=
  if indicate_current then setIndicator sc (strInScripts sc.revision currents) else sc

def moonshineRecord (indicate_current : Bool) (currents : List Script)
    (d : ScriptDir) (sc : Script) : ScriptDir :=
  if indicate_current then mutateDir d sc.revision (strInScripts sc.revision currents)
  else d

/-- `AlembicAgent.history._display_history` (src/alembic_agent/lib.py
lines 251-261): walk the range; when `indicate_current`, assign
`sc._db_current_indicator = sc in currents`; collect with
`history.insert(0, sc)`. -/
def agentDisplayHistory (sd : ScriptDir) (indicate_current : Bool)
    (base head : WalkArg) (currents : List Script) :
    List Script × ScriptDir :=
  (walkRevisions sd (base.orDefault "base") (head.orDefault "heads")).foldl
    (fun acc sc =>
      (agentMark indicate_current currents sc :: acc.1,
       agentRecord indicate_current currents acc.2 sc))
    ([], sd)

/-- `Moonshine.history._display_history` (src/moonshine/lib.py lines
178-188): identical except `sc.revision in currents` and
`history.append(sc)`. -/
def moonshineDisplayHistory (sd : ScriptDir) (indicate_current : Bool)
    (base head : WalkArg) (currents : List Script) :
    List Script × ScriptDir :=
  (walkRevisions sd (base.orDefault "base") (head.orDefault "heads")).foldl
    (fun acc sc =>
      (acc.1 ++ [moonshineMark indicate_current currents sc],
       moonshineRecord indicate_current currents acc.2 sc))
    ([], sd)

/-- `AlembicAgent.history._display_history_w_current`: reads
`rev = self.current` (the Scripts of the persisted current heads) and
dispatches on which bound is the literal `"current"`. -/
def agentDisplayHistoryWCurrent (sd : ScriptDir) (indicate_current : Bool)
    (currentHeads : List String) (base head : Option String) :
    List Script × ScriptDir :=
  let rev := getRevisions sd currentHeads
  if head == some "current" then
    agentDisplayHistory sd indicate_current (optWalkArg base) (.revs rev) rev
  else if base == some "current" then
    agentDisplayHistory sd indicate_current (.revs rev) (optWalkArg head) rev
  else
    agentDisplayHistory sd indicate_current (optWalkArg base) (optWalkArg head) rev

/-- `Moonshine.history._display_history_w_current`: same dispatch. -/
def moonshineDisplayHistoryWCurrent (sd : ScriptDir) (indicate_current : Bool)
    (currentHeads : List String) (base head : Option String) :
    List Script × ScriptDir :=
  let rev := getRevisions sd currentHeads
  if head == some "current" then
    moonshineDisplayHistory sd indicate_current (optWalkArg base) (.revs rev) rev
  else if base == some "current" then
    moonshineDisplayHistory sd indicate_current (.revs rev) (optWalkArg head) rev
  else
    moonshineDisplayHistory sd indicate_current (optWalkArg base) (optWalkArg head) rev

/-- `AlembicAgent.history(rev_range, indicate_current)`
(src/alembic_agent/lib.py lines 225-279).  `revisionEnvironment` models
`util.asbool(config.get_main_option("revision_environment"))`;
`currentHeads` models the persisted version-table heads read by
`self.current`.  Errors are `util.CommandError` / `ValueError` messages. -/
def agentHistory (sd : ScriptDir) (revisionEnvironment : Bool)
    (currentHeads : List String) (rev_range : Option String)
    (indicate_current : Bool) : Except String (List Script × ScriptDir) :=
  match rev_range with
  | some r =>
    if !(containsChar r ':') then
      .error "History range requires [start]:[end], [start]:, or :[end]"
    else
      match splitColon (pyStrip r) with
      | [b, h] =>
        if b == "current" || h == "current" ||
            (revisionEnvironment || indicate_current) then
          .ok (agentDisplayHistoryWCurrent sd indicate_current currentHeads
                (some b) (some h))
        else
          .ok (agentDisplayHistory sd indicate_current (.str b) (.str h) [])
      | _ => .error "ValueError: too many values to unpack"
  | none =>
    if revisionEnvironment || indicate_current then
      .ok (agentDisplayHistoryWCurrent sd indicate_current currentHeads none none)
    else
      .ok (agentDisplayHistory sd indicate_current .noneArg .noneArg [])

/-- `Moonshine.history(rev_range, verbose, indicate_current)`
(src/moonshine/lib.py lines 149-206); `verbose` is accepted and unused. -/
def moonshineHistory (sd : ScriptDir) (revisionEnvironment : Bool)
    (currentHeads : List String) (rev_range : Option String)
    (_verbose : Bool) (indicate_current : Bool) :
    Except String (List Script × ScriptDir) :=
  match rev_range with
  | some r =>
    if !(containsChar r ':') then
      .error "History range requires [start]:[end], [start]:, or :[end]"
    else
      match splitColon (pyStrip r) with
      | [b, h] =>
        if b == "current" || h == "current" ||
            (revisionEnvironment || indicate_current) then
          .ok (moonshineDisplayHistoryWCurrent sd indicate_current currentHeads
                (some b) (some h))
        else
          .ok (moonshineDisplayHistory sd indicate_current (.str b) (.str h) [])
      | _ => .error "ValueError: too many values to unpack"
  | none =>
    if revisionEnvironment || indicate_current then
      .ok (moonshineDisplayHistoryWCurrent sd indicate_current currentHeads none none)
    else
      .ok (moonshineDisplayHistory sd indicate_current .noneArg .noneArg [])

/-- Revision-id sequence of a history result (empty on error). -/
def historyRevIds (r : Except String (List Script × ScriptDir)) : List String :=
  match r with
  | .ok p => p.1.map Script.revision
  | .error _ => []

/-! ### The upgrade / downgrade / stamp commands

The wrappers parse the revision argument, then hand a resolver callback to
an `EnvironmentContext` and call `script.run_env()`, which executes the
configured `env.py`.  We record what a call does in a `CallObs`: whether an
exception propagates, whether `run_env` was reached, whether a connection
was opened and a transaction begun, whether migrations were executed
against the database, the resulting version-table heads, and any statement
text rendered into the offline output buffer. -/

structure CallObs where
  raised : Option String
  ranEnv : Bool
  connectionOpened : Bool
  inTransaction : Bool
  migrationsRun : Bool
  finalHeads : List String
  sqlBuffer : List String
  deriving DecidableEq, Repr

/-- Outcome of an exception raised in the wrapper before `run_env`. -/
def raisedObs (msg : String) (heads : List String) : CallObs :=
  { raised := some msg, ranEnv := false, connectionOpened := false,
    inTransaction := false, migrationsRun := false, finalHeads := heads,
    sqlBuffer := [] }

/-- Outcome of a wrapper branch that returns without invoking `env.py`
(the `if not sql: pass` branches of `Moonshine`). -/
def noopObs (heads : List String) : CallObs :=
  { raised := none, ranEnv := false, connectionOpened := false,
    inTransaction := false, migrationsRun := false, finalHeads := heads,
    sqlBuffer := [] }

/-- `src/moonshine/migrations/env.py`: if `context.is_offline_mode()` it
raises `Exception("How did you end up here ?")`; otherwise
`run_migrations_online` opens a connection and runs the migration function
inside a single `context.begin_transaction()` scope.  `is_offline_mode`
reflects the `as_sql` flag of the enclosing `EnvironmentContext`
(`Moonshine` never passes `as_sql`, so it is always false there). -/
def moonshineEnvRun (offlineMode : Bool) (exec : List String → List String)
    (heads : List String) : CallObs :=
  if offlineMode then
    { raised := some "How did you end up here ?", ranEnv := true,
      connectionOpened := false, inTransaction := false,
      migrationsRun := false, finalHeads := heads, sqlBuffer := [] }
  else
    { raised := none, ranEnv := true, connectionOpened := true,
      inTransaction := true, migrationsRun := true,
      finalHeads := exec heads, sqlBuffer := [] }

/-- Modelled from the spec: `alembic_agent/script/env.py` is configured as
`AlembicAgent`'s script location but is not under src/.  Per §4.4 of the
spec (and the `output_buffer` the wrapper places in `config.attributes`),
offline mode renders each step's statements into the output buffer without
opening a connection or touching the version store, while online mode
opens a connection and runs the sequence in one transaction. -/
def agentEnvRun (offlineMode : Bool) (exec : List String → List String)
    (render : List String) (heads : List String) : CallObs :=
  if offlineMode then
    { raised := none, ranEnv := true, connectionOpened := false,
      inTransaction := false, migrationsRun := false, finalHeads := heads,
      sqlBuffer := render }
  else
    { raised := none, ranEnv := true, connectionOpened := true,
      inTransaction := true, migrationsRun := true,
      finalHeads := exec heads, sqlBuffer := [] }

/-- Shared argument parsing of `upgrade` (both classes):
`starting_rev = None; if ":" in revision: (if not sql: raise CommandError
("Range revision not allowed")); starting_rev, revision =
revision.split(":", 2)`. -/
def upgradeParse (revision : String) (sql : Bool) (heads : List String) :
    Except CallObs (Option String × String) :=
  if containsChar revision ':' then
    if !sql then .error (raisedObs "Range revision not allowed" heads)
    else
      match pySplitUnpack2 revision with
      | some (srev, rev) => .ok (some srev, rev)
      | none => .error (raisedObs "ValueError: too many values to unpack" heads)
  else .ok (none, revision)

/-- `downgrade` parsing (both classes): as for `upgrade`, plus
`elif sql: raise CommandError("downgrade with --sql requires
<fromrev>:<torev>")` when no range is given. -/
def downgradeParse (revision : String) (sql : Bool) (heads : List String) :
    Except CallObs (Option String × String) :=
  if containsChar revision ':' then
    if !sql then .error (raisedObs "Range revision not allowed" heads)
    else
      match pySplitUnpack2 revision with
      | some (srev, rev) => .ok (some srev, rev)
      | none => .error (raisedObs "ValueError: too many values to unpack" heads)
  else if sql then
    .error (raisedObs "downgrade with --sql requires <fromrev>:<torev>" heads)
  else .ok (none, revision)

/-- `Moonshine.upgrade(revision, sql)` (src/moonshine/lib.py lines
273-311): after parsing, `if not sql: pass` (returns doing nothing),
`else:` run `env.py` under an `EnvironmentContext` constructed *without*
`as_sql`, so `env.py` takes its online branch.  `exec startingRev rev`
is the effect of `script._upgrade_revs(rev, current)` being executed on
the version-table heads. -/
def moonshineUpgrade (revision : String) (sql : Bool)
    (exec : Option String → String → List String → List String)
    (heads : List String) : CallObs :=
  match upgradeParse revision sql heads with
  | .error o => o
  | .ok (startingRev, rev) =>
    if !sql then noopObs heads
    else moonshineEnvRun false (exec startingRev rev) heads

/-- `Moonshine.downgrade(revision, sql)` (src/moonshine/lib.py lines
313-353): same structure as `Moonshine.upgrade`. -/
def moonshineDowngrade (revision : String) (sql : Bool)
    (exec : Option String → String → List String → List String)
    (heads : List String) : CallObs :=
  match downgradeParse revision sql heads with
  | .error o => o
  | .ok (startingRev, rev) =>
    if !sql then noopObs heads
    else moonshineEnvRun false (exec startingRev rev) heads

/-- `AlembicAgent.upgrade(revision, sql)` (src/alembic_agent/lib.py lines
128-168): after parsing it always runs `env.py` under an
`EnvironmentContext` with `as_sql=sql`; the method returns the contents of
the output buffer. -/
def agentUpgrade (revision : String) (sql : Bool)
    (exec : Option String → String → List String → List String)
    (render : List String) (heads : List String) : CallObs :=
  match upgradeParse revision sql heads with
  | .error o => o
  | .ok (startingRev, rev) => agentEnvRun sql (exec startingRev rev) render heads

/-- `AlembicAgent.downgrade(revision, sql)` (src/alembic_agent/lib.py
lines 170-214). -/
def agentDowngrade (revision : String) (sql : Bool)
    (exec : Option String → String → List String → List String)
    (render : List String) (heads : List String) : CallObs :=
  match downgradeParse revision sql heads with
  | .error o => o
  | .ok (startingRev, rev) => agentEnvRun sql (exec startingRev rev) render heads

/-- Modelled from the spec: `script._stamp_revs` and its execution are
alembic collaborator code (not under src/).  Per §4.4, stamp "bypasses
step execution entirely; directly sets Version State Store to a resolved
target set", with `purge` clearing all prior applied entries before
setting — either way the resulting heads are exactly the destination
revisions. -/
def stampExec (destinationRevs : List String) (_purge : Bool)
    (_heads : List String) : List String :=
  destinationRevs

/-- Stamp argument parsing for a single revision string: in `--sql` mode a
`from:to` range is split (two-variable unpack), otherwise
`destination_revs = util.to_list(revision)`. -/
def stampParse (revision : String) (sql : Bool) (heads : List String) :
    Except CallObs (Option String × List String) :=
  if sql then
    if containsChar revision ':' then
      match pySplitUnpack2 revision with
      | some (srev, rev) => .ok (some srev, [rev])
      | none => .error (raisedObs "ValueError: too many values to unpack" heads)
    else .ok (none, [revision])
  else .ok (none, [revision])

/-- `Moonshine.stamp(revision, sql, tag, purge)` (src/moonshine/lib.py
lines 208-271): `if not sql: pass` (returns doing nothing); `else:` run
`env.py` under an `EnvironmentContext` constructed *without* `as_sql`
(online branch), with `fn=do_stamp` and the `purge` flag. -/
def moonshineStamp (revision : String) (sql : Bool) (purge : Bool)
    (heads : List String) : CallObs :=
  match stampParse revision sql heads with
  | .error o => o
  | .ok (_startingRev, destinationRevs) =>
    if !sql then noopObs heads
    else moonshineEnvRun false (stampExec destinationRevs purge) heads

/-- `AlembicAgent.stamp(revision, sql, tag, purge)`
(src/alembic_agent/lib.py lines 312-378): always runs `env.py` with
`as_sql=sql` and `purge=purge`. -/
def agentStamp (revision : String) (sql : Bool) (purge : Bool)
    (render : List String) (heads : List String) : CallObs :=
  match stampParse revision sql heads with
  | .error o => o
  | .ok (_startingRev, destinationRevs) =>
    agentEnvRun sql (stampExec destinationRevs purge) render heads

/-! ### The online migration runner (transaction semantics)

`run_migrations_online` in src/moonshine/migrations/env.py wraps the whole
resolved step sequence in one `context.begin_transaction()` scope on one
connection.  The execution machinery behind `context.run_migrations()` is
alembic collaborator code, so the runner below is modelled from the spec
(§4.4 Online): writes accumulate in the open transaction, the version
store is updated at the end of the sequence, commit is the single point
where persisted state changes, and any step failure rolls the whole
transaction back and reports the failing revision with its cause. -/

deriving instance DecidableEq for Except

structure MigrationStep where
  revisionId : String
  direction : String
  result : Except String (List String)
  deriving DecidableEq, Repr

structure ExecError where
  revisionId : String
  direction : String
  cause : String
  deriving DecidableEq, Repr

/-- The committed (externally observable) database state: applied schema
statements and the version-table heads. -/
structure Database where
  schema : List String
  versionHeads : List String
  deriving DecidableEq, Repr

/-- Run the steps against the uncommitted transaction-local schema,
stopping at the first failing step. -/
def applySteps (pending : List String) :
    List MigrationStep → Except ExecError (List String)
  | [] => .ok pending
  | step :: rest =>
    match step.result with
    | .ok stmts => applySteps (pending ++ stmts) rest
    | .error cause => .error ⟨step.revisionId, step.direction, cause⟩

/-- Modelled from the spec (§4.4 Online, with env.py's single
`begin_transaction`): execute the sequence in one transaction; on success
commit the accumulated schema and the new heads at once; on failure roll
back, leaving the committed database untouched, and surface the error. -/
def runOnline (steps : List MigrationStep) (newHeads : List String)
    (db : Database) : Database × Option ExecError :=
  match applySteps db.schema steps with
  | .ok schema' => ({ schema := schema', versionHeads := newHeads }, none)
  | .error e => (db, some e)

/-! ### The upgrade path resolver

`script._upgrade_revs(revision, rev)` is alembic collaborator code (not
under src/); `upgradeSteps` is modelled from the spec (§4.2 resolve and
§4.3 Upgrade): resolve the target specifier, then
`Pending = ancestors(Target) ∪ Target minus Current`, ordered
topologically with the stable load order breaking ties. -/

/-- Modelled from the spec (§4.2): resolve a target specifier to concrete
ids; `"heads"` expands to all graph heads; an id absent from the graph is
`UnknownRevision`. -/
def resolveUpgradeTargets (sd : ScriptDir) (target : String) :
    Except String (List String) :=
  if target == "heads" then .ok (headsOf sd)
  else if decide (target ∈ scriptIds sd) then .ok [target]
  else .error ("UnknownRevision: " ++ target)

/-- Modelled from the spec (§4.3 Upgrade): the ordered apply sequence (as
revision ids, oldest first); empty when nothing is pending. -/
def upgradeSteps (sd : ScriptDir) (target : String)
    (current : List String) : Except String (List String) :=
  match resolveUpgradeTargets sd target with
  | .error e => .error e
  | .ok tgt =>
    let pendingIds := (ancClosure sd tgt).filter
      (fun id => !(decide (id ∈ current)))
    .ok (scriptIds (topoOldestFirst (sd.filter
      (fun s => pendingIds.contains s.revision))))

/-- The spec's fundamental Applied State invariant (§3): the applied set
is closed under ancestry. -/
def closedUnderAncestry (sd : ScriptDir) (current : List String) : Prop :=
  ∀ id ∈ current, ∀ p ∈ parentIdsOf sd id, p ∈ current

instance (sd : ScriptDir) (current : List String) :
    Decidable (closedUnderAncestry sd current) := by
  unfold closedUnderAncestry
  infer_instance

/-! ### Fixtures and relations used by the theorems -/

def scriptA : Script := ⟨"a", [], [], none⟩

def scriptB : Script := ⟨"b", ["a"], [], none⟩

/-- A two-revision linear graph `a ← b`, in load order. -/
def twoRevDir : ScriptDir := [scriptA, scriptB]

/-- The script directory a history call leaves behind. -/
def resultDir (r : Except String (List Script × ScriptDir))
    (fallback : ScriptDir) : ScriptDir :=
  match r with
  | .ok p => p.2
  | .error _ => fallback

/-- `t` is `s` with at most its `_db_current_indicator` field overwritten. -/
def indicatorOnly (s t : Script) : Prop :=
  t = s ∨ ∃ b, t = { s with dbCurrentIndicator := some b }

/-- The directory `d` is `sd` with at most indicator fields overwritten. -/
def onlyIndicatorChanged (sd d : ScriptDir) : Prop :=
  List.Forall₂ indicatorOnly sd d

def dirOnlyIndicatorChanged (sd : ScriptDir) :
    Except String (List Script × ScriptDir) → Prop
  | .ok p => onlyIndicatorChanged sd p.2
  | .error _ => True

/-- How the two history variants relate on equal arguments: identical
errors, or success on both with mutually reversed revision sequences and
`Moonshine` never newly marking any script as current. -/
def historyAgrees (sd : ScriptDir)
    (agentRes moonshineRes : Except String (List Script × ScriptDir)) : Prop :=
  match agentRes, moonshineRes with
  | .error e₁, .error e₂ => e₁ = e₂
  | .ok p₁, .ok p₂ =>
      p₂.1.map Script.revision = (p₁.1.map Script.revision).reverse ∧
      ∀ s ∈ p₂.1, s.dbCurrentIndicator = some false ∨ s ∈ sd
  | _, _ => False

/-- The spec's acyclicity invariant on a revision graph, witnessed by a
rank function that strictly decreases from a revision to its parents. -/
def Acyclic (sd : ScriptDir) : Prop :=
  ∃ rank : String → Nat,
    ∀ s ∈ sd, ∀ p ∈ s.allParentIds, rank p < rank s.revision

/-- A script list is in parents-first (chronological) order: no script is
followed by an occurrence of one of its parents. -/
def noParentLater : List Script → Prop
  | [] => True
  | s :: rest =>
    (∀ t ∈ rest, ¬ t.revision ∈ s.allParentIds) ∧ noParentLater rest

/-! ## Supporting lemmas -/

theorem kahnGo_subset :
    ∀ (n : Nat) (rem : ScriptDir), ∀ x ∈ kahnGo n rem, x ∈ rem := by
  intro n
  induction n with
  | zero => intro rem x hx; exact hx
  | succ m ih =>
    intro rem x hx
    unfold kahnGo at hx
    cases hfind : rem.find? (kahnReady rem) with
    | none => rw [hfind] at hx; exact hx
    | some s =>
      rw [hfind] at hx
      rcases List.mem_cons.mp hx with rfl | h
      · exact List.mem_of_find?_eq_some hfind
      · exact List.mem_of_mem_erase (ih _ x h)

theorem walkRevisions_subset (sd : ScriptDir) (base head : WalkSpec) :
    ∀ x ∈ walkRevisions sd base head, x ∈ sd := by
  intro x hx
  unfold walkRevisions topoOldestFirst at hx
  rw [List.mem_reverse] at hx
  exact (List.mem_filter.mp (kahnGo_subset _ _ x hx)).1

theorem foldl_insert_fst (mark : Script → Script)
    (record : ScriptDir → Script → ScriptDir) :
    ∀ (l a : List Script) (d : ScriptDir),
      (l.foldl (fun acc sc => (mark sc :: acc.1, record acc.2 sc)) (a, d)).1
        = (l.map mark).reverse ++ a := by
  intro l
  induction l with
  | nil => intro a d; simp
  | cons x xs ih => intro a d; simp [ih, List.append_assoc]

theorem foldl_insert_snd (mark : Script → Script)
    (record : ScriptDir → Script → ScriptDir) :
    ∀ (l a : List Script) (d : ScriptDir),
      (l.foldl (fun acc sc => (mark sc :: acc.1, record acc.2 sc)) (a, d)).2
        = l.foldl record d := by
  intro l
  induction l with
  | nil => intro a d; simp
  | cons x xs ih => intro a d; simp [ih]

theorem foldl_append_fst (mark : Script → Script)
    (record : ScriptDir → Script → ScriptDir) :
    ∀ (l a : List Script) (d : ScriptDir),
      (l.foldl (fun acc sc => (acc.1 ++ [mark sc], record acc.2 sc)) (a, d)).1
        = a ++ l.map mark := by
  intro l
  induction l with
  | nil => intro a d; simp
  | cons x xs ih => intro a d; simp [ih]

theorem foldl_append_snd (mark : Script → Script)
    (record : ScriptDir → Script → ScriptDir) :
    ∀ (l a : List Script) (d : ScriptDir),
      (l.foldl (fun acc sc => (acc.1 ++ [mark sc], record acc.2 sc)) (a, d)).2
        = l.foldl record d := by
  intro l
  induction l with
  | nil => intro a d; simp
  | cons x xs ih => intro a d; simp [ih]

theorem agentDisplayHistory_fst (sd : ScriptDir) (ind : Bool)
    (base head : WalkArg) (currents : List Script) :
    (agentDisplayHistory sd ind base head currents).1
      = ((walkRevisions sd (base.orDefault "base") (head.orDefault "heads")).map
          (agentMark ind currents)).reverse := by
  unfold agentDisplayHistory
  rw [foldl_insert_fst]
  simp

theorem agentDisplayHistory_snd (sd : ScriptDir) (ind : Bool)
    (base head : WalkArg) (currents : List Script) :
    (agentDisplayHistory sd ind base head currents).2
      = (walkRevisions sd (base.orDefault "base") (head.orDefault "heads")).foldl
          (agentRecord ind currents) sd := by
  unfold agentDisplayHistory
  rw [foldl_insert_snd]

theorem moonshineDisplayHistory_fst (sd : ScriptDir) (ind : Bool)
    (base head : WalkArg) (currents : List Script) :
    (moonshineDisplayHistory sd ind base head currents).1
      = (walkRevisions sd (base.orDefault "base") (head.orDefault "heads")).map
          (moonshineMark ind currents) := by
  unfold moonshineDisplayHistory
  rw [foldl_append_fst]
  simp

theorem moonshineDisplayHistory_snd (sd : ScriptDir) (ind : Bool)
    (base head : WalkArg) (currents : List Script) :
    (moonshineDisplayHistory sd ind base head currents).2
      = (walkRevisions sd (base.orDefault "base") (head.orDefault "heads")).foldl
          (moonshineRecord ind currents) sd := by
  unfold moonshineDisplayHistory
  rw [foldl_append_snd]

theorem agentMark_revision (ind : Bool) (currents : List Script) (sc : Script) :
    (agentMark ind currents sc).revision = sc.revision := by
  unfold agentMark setIndicator
  split <;> rfl

theorem moonshineMark_revision (ind : Bool) (currents : List Script) (sc : Script) :
    (moonshineMark ind currents sc).revision = sc.revision := by
  unfold moonshineMark setIndicator
  split <;> rfl

theorem display_rev_ids (sd : ScriptDir) (ind : Bool) (base head : WalkArg)
    (currents : List Script) :
    (moonshineDisplayHistory sd ind base head currents).1.map Script.revision
      = ((agentDisplayHistory sd ind base head currents).1.map
          Script.revision).reverse := by
  rw [moonshineDisplayHistory_fst, agentDisplayHistory_fst]
  rw [List.map_reverse, List.reverse_reverse, List.map_map, List.map_map]
  apply List.map_congr_left
  intro a _
  simp [Function.comp, agentMark_revision, moonshineMark_revision]

theorem moonshineDisplay_no_current (sd : ScriptDir) (ind : Bool)
    (base head : WalkArg) (currents : List Script) :
    ∀ s ∈ (moonshineDisplayHistory sd ind base head currents).1,
      s.dbCurrentIndicator = some false ∨ s ∈ sd := by
  rw [moonshineDisplayHistory_fst]
  intro s hs
  rcases List.mem_map.mp hs with ⟨sc, hsc, rfl⟩
  unfold moonshineMark
  cases ind with
  | true => left; rfl
  | false => right; exact walkRevisions_subset _ _ _ sc hsc

theorem indicatorOnly_refl (s : Script) : indicatorOnly s s :=
  Or.inl rfl

theorem onlyIndicatorChanged_refl (sd : ScriptDir) :
    onlyIndicatorChanged sd sd :=
  List.forall₂_same.mpr (fun s _ => indicatorOnly_refl s)

theorem indicatorOnly_set (s t : Script) (b : Bool) (h : indicatorOnly s t) :
    indicatorOnly s (setIndicator t b) := by
  rcases h with rfl | ⟨b₀, rfl⟩
  · exact Or.inr ⟨b, rfl⟩
  · exact Or.inr ⟨b, rfl⟩

theorem onlyIndicatorChanged_mutate (sd d : ScriptDir) (id : String) (b : Bool)
    (h : onlyIndicatorChanged sd d) :
    onlyIndicatorChanged sd (mutateDir d id b) := by
  unfold mutateDir onlyIndicatorChanged
  rw [List.forall₂_map_right_iff]
  refine List.Forall₂.imp ?_ h
  intro s t hst
  split
  · exact indicatorOnly_set s t b hst
  · exact hst

theorem agentRecord_preserves (sd : ScriptDir) (ind : Bool)
    (currents : List Script) :
    ∀ (l : List Script) (d : ScriptDir), onlyIndicatorChanged sd d →
      onlyIndicatorChanged sd (l.foldl (agentRecord ind currents) d) := by
  intro l
  induction l with
  | nil => intro d h; exact h
  | cons x xs ih =>
    intro d h
    rw [List.foldl_cons]
    apply ih
    unfold agentRecord
    split
    · exact onlyIndicatorChanged_mutate _ _ _ _ h
    · exact h

theorem moonshineRecord_preserves (sd : ScriptDir) (ind : Bool)
    (currents : List Script) :
    ∀ (l : List Script) (d : ScriptDir), onlyIndicatorChanged sd d →
      onlyIndicatorChanged sd (l.foldl (moonshineRecord ind currents) d) := by
  intro l
  induction l with
  | nil => intro d h; exact h
  | cons x xs ih =>
    intro d h
    rw [List.foldl_cons]
    apply ih
    unfold moonshineRecord
    split
    · exact onlyIndicatorChanged_mutate _ _ _ _ h
    · exact h

theorem agentDisplay_dir_only (sd : ScriptDir) (ind : Bool)
    (base head : WalkArg) (currents : List Script) :
    onlyIndicatorChanged sd (agentDisplayHistory sd ind base head currents).2 := by
  rw [agentDisplayHistory_snd]
  exact agentRecord_preserves sd ind currents _ sd (onlyIndicatorChanged_refl sd)

theorem moonshineDisplay_dir_only (sd : ScriptDir) (ind : Bool)
    (base head : WalkArg) (currents : List Script) :
    onlyIndicatorChanged sd
      (moonshineDisplayHistory sd ind base head currents).2 := by
  rw [moonshineDisplayHistory_snd]
  exact moonshineRecord_preserves sd ind currents _ sd (onlyIndicatorChanged_refl sd)

theorem history_pair_shape (sd : ScriptDir) (rE : Bool) (ch : List String)
    (range : Option String) (verbose ind : Bool) :
    (∃ e, agentHistory sd rE ch range ind = .error e ∧
          moonshineHistory sd rE ch range verbose ind = .error e) ∨
    (∃ base head currents,
        agentHistory sd rE ch range ind
          = .ok (agentDisplayHistory sd ind base head currents) ∧
        moonshineHistory sd rE ch range verbose ind
          = .ok (moonshineDisplayHistory sd ind base head currents)) := by
  cases range with
  | none =>
    by_cases he : (rE || ind) = true
    · right
      refine ⟨.noneArg, .noneArg, getRevisions sd ch, ?_, ?_⟩ <;>
        simp [agentHistory, moonshineHistory, agentDisplayHistoryWCurrent,
          moonshineDisplayHistoryWCurrent, optWalkArg, he]
    · right
      refine ⟨.noneArg, .noneArg, [], ?_, ?_⟩ <;>
        simp [agentHistory, moonshineHistory, he]
  | some r =>
    by_cases hc : containsChar r ':' = true
    · cases hsplit : splitColon (pyStrip r) with
      | nil =>
        left
        refine ⟨"ValueError: too many values to unpack", ?_, ?_⟩ <;>
          simp [agentHistory, moonshineHistory, hc, hsplit]
      | cons b t =>
        cases t with
        | nil =>
          left
          refine ⟨"ValueError: too many values to unpack", ?_, ?_⟩ <;>
            simp [agentHistory, moonshineHistory, hc, hsplit]
        | cons h t2 =>
          cases t2 with
          | cons x t3 =>
            left
            refine ⟨"ValueError: too many values to unpack", ?_, ?_⟩ <;>
              simp [agentHistory, moonshineHistory, hc, hsplit]
          | nil =>
            by_cases hcur : (b == "current" || h == "current" || (rE || ind)) = true
            · by_cases hh : (h == "current") = true
              · right
                refine ⟨optWalkArg (some b), .revs (getRevisions sd ch),
                  getRevisions sd ch, ?_, ?_⟩ <;>
                  simp [agentHistory, moonshineHistory,
                    agentDisplayHistoryWCurrent, moonshineDisplayHistoryWCurrent,
                    hc, hsplit, hcur, hh]
              · by_cases hb : (b == "current") = true
                · right
                  refine ⟨.revs (getRevisions sd ch), optWalkArg (some h),
                    getRevisions sd ch, ?_, ?_⟩ <;>
                    simp [agentHistory, moonshineHistory,
                      agentDisplayHistoryWCurrent, moonshineDisplayHistoryWCurrent,
                      hc, hsplit, hcur, hh, hb]
                · right
                  have he : (rE || ind) = true := by
                    cases hre : rE <;> cases hind : ind <;> simp_all
                  refine ⟨optWalkArg (some b), optWalkArg (some h),
                    getRevisions sd ch, ?_, ?_⟩ <;>
                    simp [agentHistory, moonshineHistory,
                      agentDisplayHistoryWCurrent, moonshineDisplayHistoryWCurrent,
                      hc, hsplit, hcur, hh, hb, he]
            · right
              refine ⟨.str b, .str h, [], ?_, ?_⟩ <;>
                simp [agentHistory, moonshineHistory, hc, hsplit, hcur]
    · left
      refine ⟨"History range requires [start]:[end], [start]:, or :[end]",
        ?_, ?_⟩ <;>
        simp [agentHistory, moonshineHistory, hc]

theorem applySteps_first_error (step : MigrationStep) (cause : String)
    (hstep : step.result = .error cause) :
    ∀ (pre post : List MigrationStep) (pending : List String),
      (∀ s ∈ pre, ∃ stmts, s.result = .ok stmts) →
      applySteps pending (pre ++ step :: post)
        = .error ⟨step.revisionId, step.direction, cause⟩ := by
  intro pre
  induction pre with
  | nil =>
    intro post pending _
    simp [applySteps, hstep]
  | cons x xs ih =>
    intro post pending hok
    obtain ⟨stmts, hx⟩ := hok x (List.mem_cons_self x xs)
    simp only [List.cons_append, applySteps, hx]
    exact ih post (pending ++ stmts) (fun s hs => hok s (List.mem_cons_of_mem x hs))

theorem closureStep_subset (sd : ScriptDir) (cur s : List String)
    (hclosed : closedUnderAncestry sd cur) (hs : ∀ id ∈ s, id ∈ cur) :
    ∀ id ∈ closureStep sd s, id ∈ cur := by
  intro id hid
  unfold closureStep at hid
  rw [List.mem_dedup] at hid
  rcases List.mem_append.mp hid with hmem | hmem
  · exact hs _ hmem
  · rcases List.mem_flatMap.mp hmem with ⟨a, ha, hp⟩
    exact hclosed a (hs a ha) id hp

theorem closureN_subset (sd : ScriptDir) (cur : List String)
    (hclosed : closedUnderAncestry sd cur) :
    ∀ (n : Nat) (s : List String), (∀ id ∈ s, id ∈ cur) →
      ∀ id ∈ closureN sd n s, id ∈ cur := by
  intro n
  induction n with
  | zero => intro s hs id hid; exact hs id hid
  | succ m ih =>
    intro s hs id hid
    exact ih (closureStep sd s) (closureStep_subset sd cur s hclosed hs) id hid

theorem exists_min_rank (rank : String → Nat) :
    ∀ (rem : ScriptDir), rem ≠ [] →
      ∃ s ∈ rem, ∀ t ∈ rem, rank s.revision ≤ rank t.revision := by
  intro rem
  induction rem with
  | nil => intro h; exact absurd rfl h
  | cons x xs ih =>
    intro _
    by_cases hxs : xs = []
    · subst hxs
      refine ⟨x, List.mem_cons_self x [], ?_⟩
      intro t ht
      rcases List.mem_cons.mp ht with rfl | h
      · exact le_refl _
      · cases h
    · obtain ⟨s, hs, hmin⟩ := ih hxs
      by_cases hle : rank x.revision ≤ rank s.revision
      · refine ⟨x, List.mem_cons_self x xs, ?_⟩
        intro t ht
        rcases List.mem_cons.mp ht with rfl | h
        · exact le_refl _
        · exact le_trans hle (hmin t h)
      · refine ⟨s, List.mem_cons_of_mem x hs, ?_⟩
        intro t ht
        rcases List.mem_cons.mp ht with rfl | h
        · exact le_of_lt (lt_of_not_le hle)
        · exact hmin t h

theorem kahn_progress (rank : String → Nat) (rem : ScriptDir)
    (hr : ∀ s ∈ rem, ∀ p ∈ s.allParentIds, rank p < rank s.revision)
    (hne : rem ≠ []) : ∃ s ∈ rem, kahnReady rem s = true := by
  obtain ⟨s, hs, hmin⟩ := exists_min_rank rank rem hne
  refine ⟨s, hs, ?_⟩
  unfold kahnReady
  rw [List.all_eq_true]
  intro p hp
  simp only [Bool.not_eq_true', decide_eq_false_iff_not]
  intro hmem
  rcases List.mem_map.mp hmem with ⟨t, ht, hteq⟩
  have h1 : rank p < rank s.revision := hr s hs p hp
  have h2 : rank s.revision ≤ rank t.revision := hmin t ht
  rw [hteq] at h2
  exact absurd (lt_of_lt_of_le h1 h2) (lt_irrefl _)

theorem kahnGo_noParentLater (rank : String → Nat) :
    ∀ (n : Nat) (rem : ScriptDir), rem.length ≤ n →
      (∀ s ∈ rem, ∀ p ∈ s.allParentIds, rank p < rank s.revision) →
      noParentLater (kahnGo n rem) := by
  intro n
  induction n with
  | zero =>
    intro rem hlen _
    have hnil : rem = [] := List.eq_nil_of_length_eq_zero (Nat.le_zero.mp hlen)
    subst hnil
    exact trivial
  | succ m ih =>
    intro rem hlen hr
    by_cases hne : rem = []
    · subst hne
      exact trivial
    · obtain ⟨s₀, hs₀, hready₀⟩ := kahn_progress rank rem hr hne
      have hfind : (rem.find? (kahnReady rem)).isSome :=
        List.find?_isSome.mpr ⟨s₀, hs₀, hready₀⟩
      obtain ⟨s, hfs⟩ := Option.isSome_iff_exists.mp hfind
      have hsmem : s ∈ rem := List.mem_of_find?_eq_some hfs
      have hsready : kahnReady rem s = true := List.find?_some hfs
      show noParentLater (kahnGo (m + 1) rem)
      unfold kahnGo
      rw [hfs]
      refine ⟨?_, ?_⟩
      · intro t ht hpar
        have htrem : t ∈ rem :=
          List.mem_of_mem_erase (kahnGo_subset m (rem.erase s) t ht)
        unfold kahnReady at hsready
        rw [List.all_eq_true] at hsready
        have hnp := hsready t.revision hpar
        simp only [Bool.not_eq_true', decide_eq_false_iff_not] at hnp
        exact hnp (List.mem_map.mpr ⟨t, htrem, rfl⟩)
      · apply ih
        · rw [List.length_erase_of_mem hsmem]
          omega
        · intro t ht p hp
          exact hr t (List.mem_of_mem_erase ht) p hp

theorem topoOldestFirst_parents_first (sd : ScriptDir)
    (hacyclic : Acyclic sd) : noParentLater (topoOldestFirst sd) := by
  obtain ⟨rank, hr⟩ := hacyclic
  exact kahnGo_noParentLater rank sd.length sd (le_refl _) hr

theorem noParentLater_map (f : Script → Script)
    (hrev : ∀ s, (f s).revision = s.revision)
    (hpar : ∀ s, (f s).allParentIds = s.allParentIds) :
    ∀ l, noParentLater l → noParentLater (l.map f) := by
  intro l
  induction l with
  | nil => intro h; exact h
  | cons x xs ih =>
    intro h
    obtain ⟨h1, h2⟩ := h
    refine ⟨?_, ih h2⟩
    intro t ht hparent
    rcases List.mem_map.mp ht with ⟨u, hu, rfl⟩
    rw [hrev u, hpar x] at hparent
    exact h1 u hu hparent

theorem agentMark_allParentIds (ind : Bool) (currents : List Script)
    (s : Script) :
    (agentMark ind currents s).allParentIds = s.allParentIds := by
  unfold agentMark setIndicator Script.allParentIds
  split <;> rfl

/-- On any acyclic script directory, the history list produced by
`AlembicAgent`'s `_display_history` is chronological: no revision is ever
followed by one of its parents. -/
theorem agentDisplayHistory_chronological (sd : ScriptDir) (ind : Bool)
    (base head : WalkArg) (currents : List Script) (hacyclic : Acyclic sd) :
    noParentLater (agentDisplayHistory sd ind base head currents).1 := by
  rw [agentDisplayHistory_fst]
  unfold walkRevisions
  rw [List.map_reverse, List.reverse_reverse]
  apply noParentLater_map (agentMark ind currents)
    (agentMark_revision ind currents) (agentMark_allParentIds ind currents)
  apply topoOldestFirst_parents_first
  obtain ⟨rank, hr⟩ := hacyclic
  exact ⟨rank, fun s hs => hr s (List.mem_filter.mp hs).1⟩

/-! ## Claim theorems -/

/-- C1: the claim says every `upgrade(revision, sql=False)` call executes
the resolved apply sequence against a live connection inside one
transaction and is not a no-op.  Evaluating the code at the failing input:
`Moonshine.upgrade("head", sql=False)` takes the `if not sql: pass` branch
and returns without ever invoking `env.py` (a no-op: no connection, no
transaction, heads untouched), while the sibling `AlembicAgent.upgrade`
does run `env.py` online, inside one transaction, executing the sequence. -/
theorem moonshine_online_upgrade_is_noop :
    moonshineUpgrade "head" false (fun _ _ heads => "up rev1" :: heads) ["old"]
      = noopObs ["old"]
  ∧ agentUpgrade "head" false (fun _ _ heads => "up rev1" :: heads) [] ["old"]
      = { raised := none, ranEnv := true, connectionOpened := true,
          inTransaction := true, migrationsRun := true,
          finalHeads := ["up rev1", "old"], sqlBuffer := [] } := by
  exact ⟨rfl, rfl⟩

/-- C2: the claim says a `sql=True` (offline) call opens no connection,
leaves the version state store unchanged, and accumulates rendered
statement text into an output buffer.  Evaluating the code at the failing
input: `Moonshine.upgrade("base:head", sql=True)` constructs its
`EnvironmentContext` without `as_sql`, so `env.py` takes the online
branch — a live connection is opened, the migrations are executed in a
transaction, the version heads change, and nothing is rendered into any
buffer. -/
theorem moonshine_offline_upgrade_opens_connection :
    moonshineUpgrade "base:head" true (fun _ _ heads => "up rev1" :: heads)
        ["old"]
      = { raised := none, ranEnv := true, connectionOpened := true,
          inTransaction := true, migrationsRun := true,
          finalHeads := ["up rev1", "old"], sqlBuffer := [] } := by
  exact rfl

/-- C3: the claim says `stamp(target, purge=True)` in online mode
(`sql=False`) on a non-empty version store leaves exactly `{target}` as
the current heads.  Evaluating the code at the failing input:
`Moonshine.stamp("rev1", sql=False, purge=True)` takes the
`if not sql: pass` branch and is a no-op — the prior heads
`["old1", "old2"]` survive — while `AlembicAgent.stamp` does run the
stamp online and leaves exactly `["rev1"]`. -/
theorem moonshine_stamp_purge_is_noop :
    moonshineStamp "rev1" false true ["old1", "old2"]
      = noopObs ["old1", "old2"]
  ∧ agentStamp "rev1" false true [] ["old1", "old2"]
      = { raised := none, ranEnv := true, connectionOpened := true,
          inTransaction := true, migrationsRun := true,
          finalHeads := ["rev1"], sqlBuffer := [] } := by
  exact ⟨rfl, rfl⟩

/-- C4: for every target string without an explicit `from:to` range,
`downgrade(revision, sql=True)` in both classes raises the invalid-range
`CommandError` ("downgrade with --sql requires <fromrev>:<torev>") before
any execution: `env.py` is never run, no connection is opened, and the
heads are untouched. -/
theorem downgrade_offline_requires_range (rev : String)
    (execA execM : Option String → String → List String → List String)
    (render heads : List String)
    (hnorange : containsChar rev ':' = false) :
    agentDowngrade rev true execA render heads
      = raisedObs "downgrade with --sql requires <fromrev>:<torev>" heads
  ∧ moonshineDowngrade rev true execM heads
      = raisedObs "downgrade with --sql requires <fromrev>:<torev>" heads := by
  constructor <;>
    simp [agentDowngrade, moonshineDowngrade, downgradeParse, hnorange]

theorem downgrade_offline_requires_range_witness :
    containsChar "head" ':' = false
  ∧ agentDowngrade "head" true (fun _ _ heads => heads) [] ["old"]
      = raisedObs "downgrade with --sql requires <fromrev>:<torev>" ["old"]
  ∧ moonshineDowngrade "head" true (fun _ _ heads => heads) ["old"]
      = raisedObs "downgrade with --sql requires <fromrev>:<torev>" ["old"] :=
  ⟨by decide,
   (downgrade_offline_requires_range "head" (fun _ _ heads => heads)
     (fun _ _ heads => heads) [] ["old"] (by decide)).1,
   (downgrade_offline_requires_range "head" (fun _ _ heads => heads)
     (fun _ _ heads => heads) [] ["old"] (by decide)).2⟩

/-- C5: the claim says `history` returns the revisions of a valid
`base:head` range in chronological (oldest-first) order.  Evaluating the
code at the failing input: on the linear graph `a ← b`,
`Moonshine.history("base:heads")` appends in the head-to-base walk order
and returns `["b", "a"]` (newest first), while
`AlembicAgent.history("base:heads")` uses `history.insert(0, sc)` and
returns the chronological `["a", "b"]`. -/
theorem moonshine_history_newest_first :
    historyRevIds (moonshineHistory twoRevDir false [] (some "base:heads")
        false false)
      = ["b", "a"]
  ∧ historyRevIds (agentHistory twoRevDir false [] (some "base:heads") false)
      = ["a", "b"] := by
  exact ⟨rfl, rfl⟩

/-- C6 counterexample: the claim says `history(indicate_current=True)`
carries the current-revision flag in a side annotation and mutates no
field of any Revision.  False at a concrete input: after
`AlembicAgent.history("base:heads", indicate_current=True)` on the graph
`a ← b` with current head `b`, the script directory's stored Revision
objects have changed (their `_db_current_indicator` fields were
assigned). -/
theorem history_mutates_scripts :
    resultDir (agentHistory twoRevDir false ["b"] (some "base:heads") true)
        twoRevDir
      ≠ twoRevDir := by
  decide

/-- C6 amended: the current-revision flag is carried by assigning the
`_db_current_indicator` attribute on the Revision (Script) objects
themselves, in place; apart from that indicator field the revisions of
the script directory are unchanged by any `history` call, in either
class. -/
theorem history_only_indicator_mutated (sd : ScriptDir) (rE : Bool)
    (ch : List String) (range : Option String) (verbose ind : Bool) :
    dirOnlyIndicatorChanged sd (agentHistory sd rE ch range ind)
  ∧ dirOnlyIndicatorChanged sd (moonshineHistory sd rE ch range verbose ind) := by
  rcases history_pair_shape sd rE ch range verbose ind with
    ⟨e, ha, hm⟩ | ⟨base, head, currents, ha, hm⟩
  · rw [ha, hm]; exact ⟨trivial, trivial⟩
  · rw [ha, hm]
    exact ⟨agentDisplay_dir_only sd ind base head currents,
           moonshineDisplay_dir_only sd ind base head currents⟩

theorem history_only_indicator_mutated_witness :
    dirOnlyIndicatorChanged twoRevDir
      (agentHistory twoRevDir false ["b"] (some "base:heads") true)
  ∧ dirOnlyIndicatorChanged twoRevDir
      (moonshineHistory twoRevDir false ["b"] (some "base:heads") false true) :=
  history_only_indicator_mutated twoRevDir false ["b"] (some "base:heads")
    false true

/-- C7: in an online run where some step's operation fails, the single
enclosing transaction is rolled back in full — the committed database
(schema and version heads) afterwards equals the pre-run database, and
the reported error carries the failing revision id, its direction and the
underlying cause. -/
theorem runOnline_rollback_on_failure (db : Database) (newHeads : List String)
    (pre post : List MigrationStep) (step : MigrationStep) (cause : String)
    (hpre : ∀ s ∈ pre, ∃ stmts, s.result = .ok stmts)
    (hstep : step.result = .error cause) :
    (runOnline (pre ++ step :: post) newHeads db).1 = db
  ∧ (runOnline (pre ++ step :: post) newHeads db).2
      = some ⟨step.revisionId, step.direction, cause⟩ := by
  unfold runOnline
  rw [applySteps_first_error step cause hstep pre post db.schema hpre]
  exact ⟨rfl, rfl⟩

theorem runOnline_rollback_on_failure_witness :
    ((⟨"r2", "upgrade", .error "boom"⟩ : MigrationStep).result
        = .error "boom")
  ∧ (runOnline [⟨"r1", "upgrade", .ok ["create t1"]⟩,
        ⟨"r2", "upgrade", .error "boom"⟩] ["r2"] ⟨["t0"], ["h0"]⟩).1
      = ⟨["t0"], ["h0"]⟩
  ∧ (runOnline [⟨"r1", "upgrade", .ok ["create t1"]⟩,
        ⟨"r2", "upgrade", .error "boom"⟩] ["r2"] ⟨["t0"], ["h0"]⟩).2
      = some ⟨"r2", "upgrade", "boom"⟩ :=
  ⟨rfl,
   (runOnline_rollback_on_failure ⟨["t0"], ["h0"]⟩ ["r2"]
     [⟨"r1", "upgrade", .ok ["create t1"]⟩] []
     ⟨"r2", "upgrade", .error "boom"⟩ "boom"
     (by intro s hs; rw [List.mem_singleton] at hs; exact ⟨_, by rw [hs]⟩)
     rfl).1,
   (runOnline_rollback_on_failure ⟨["t0"], ["h0"]⟩ ["r2"]
     [⟨"r1", "upgrade", .ok ["create t1"]⟩] []
     ⟨"r2", "upgrade", .error "boom"⟩ "boom"
     (by intro s hs; rw [List.mem_singleton] at hs; exact ⟨_, by rw [hs]⟩)
     rfl).2⟩

/-- C8: resolving an upgrade whose target revisions are all already
included in the current applied state (which, by the spec's fundamental
invariant, is closed under ancestry) yields an empty step sequence and no
error. -/
theorem upgrade_already_applied_empty (sd : ScriptDir) (target : String)
    (tgt current : List String)
    (hres : resolveUpgradeTargets sd target = .ok tgt)
    (hsub : ∀ id ∈ tgt, id ∈ current)
    (hclosed : closedUnderAncestry sd current) :
    upgradeSteps sd target current = .ok [] := by
  unfold upgradeSteps
  rw [hres]
  have hcl : ∀ id ∈ ancClosure sd tgt, id ∈ current :=
    closureN_subset sd current hclosed _ tgt hsub
  have hfil : (ancClosure sd tgt).filter
      (fun id => !(decide (id ∈ current))) = [] := by
    rw [List.filter_eq_nil_iff]
    intro a ha
    simp [hcl a ha]
  show Except.ok (scriptIds (topoOldestFirst (sd.filter
    (fun s => ((ancClosure sd tgt).filter
      (fun id => !(decide (id ∈ current)))).contains s.revision)))) = .ok []
  rw [hfil]
  have hfil2 : sd.filter
      (fun s => ([] : List String).contains s.revision) = [] := by
    rw [List.filter_eq_nil_iff]
    intro a ha
    simp
  rw [hfil2]
  rfl

theorem upgrade_already_applied_empty_witness :
    resolveUpgradeTargets twoRevDir "b" = .ok ["b"]
  ∧ (∀ id ∈ ["b"], id ∈ ["a", "b"])
  ∧ closedUnderAncestry twoRevDir ["a", "b"]
  ∧ upgradeSteps twoRevDir "b" ["a", "b"] = .ok [] :=
  ⟨by decide, by decide, by decide,
   upgrade_already_applied_empty twoRevDir "b" ["b"] ["a", "b"]
     (by decide) (by decide) (by decide)⟩

/-- C9 counterexample: the claim says `AlembicAgent.history` and
`Moonshine.history` return the same list of revisions with the same
annotations on equal arguments.  False at a concrete input: on the graph
`a ← b` with range `"base:heads"`, the two variants return the revision
sequences `["a", "b"]` and `["b", "a"]` respectively. -/
theorem history_variants_differ :
    historyRevIds (agentHistory twoRevDir false [] (some "base:heads") false)
      ≠ historyRevIds (moonshineHistory twoRevDir false []
          (some "base:heads") false false) := by
  decide

/-- C9 amended: on equal arguments the two `history` variants fail with
identical errors or both succeed returning the same revisions in mutually
reversed order (`AlembicAgent` oldest first, `Moonshine` newest first);
moreover `Moonshine` never newly marks any revision as current (its
membership test compares a revision-id string against Script objects),
while `AlembicAgent` flags membership in the current set. -/
theorem history_variants_agree (sd : ScriptDir) (rE : Bool)
    (ch : List String) (range : Option String) (verbose ind : Bool) :
    historyAgrees sd (agentHistory sd rE ch range ind)
      (moonshineHistory sd rE ch range verbose ind) := by
  rcases history_pair_shape sd rE ch range verbose ind with
    ⟨e, ha, hm⟩ | ⟨base, head, currents, ha, hm⟩
  · rw [ha, hm]; exact rfl
  · rw [ha, hm]
    exact ⟨display_rev_ids sd ind base head currents,
           moonshineDisplay_no_current sd ind base head currents⟩

theorem history_variants_agree_witness :
    historyAgrees twoRevDir
      (agentHistory twoRevDir false ["b"] (some "base:heads") true)
      (moonshineHistory twoRevDir false ["b"] (some "base:heads") false true) :=
  history_variants_agree twoRevDir false ["b"] (some "base:heads") false true

/-- C10: for every revision argument containing a `:` range separator,
`upgrade` and `downgrade` with `sql=False` raise
`CommandError("Range revision not allowed")` in both classes before any
execution (no `env.py` run, no connection, heads untouched), and with
`sql=True` neither wrapper raises that error — range targets pass the
wrapper check only in offline mode. -/
theorem range_revision_not_allowed_online (rev : String)
    (execA execM : Option String → String → List String → List String)
    (render heads : List String)
    (hrange : containsChar rev ':' = true) :
    agentUpgrade rev false execA render heads
      = raisedObs "Range revision not allowed" heads
  ∧ moonshineUpgrade rev false execM heads
      = raisedObs "Range revision not allowed" heads
  ∧ agentDowngrade rev false execA render heads
      = raisedObs "Range revision not allowed" heads
  ∧ moonshineDowngrade rev false execM heads
      = raisedObs "Range revision not allowed" heads
  ∧ (agentUpgrade rev true execA render heads).raised
      ≠ some "Range revision not allowed"
  ∧ (moonshineUpgrade rev true execM heads).raised
      ≠ some "Range revision not allowed"
  ∧ (agentDowngrade rev true execA render heads).raised
      ≠ some "Range revision not allowed"
  ∧ (moonshineDowngrade rev true execM heads).raised
      ≠ some "Range revision not allowed" := by
  have hpU : upgradeParse rev false heads
      = .error (raisedObs "Range revision not allowed" heads) := by
    simp [upgradeParse, hrange]
  have hpD : downgradeParse rev false heads
      = .error (raisedObs "Range revision not allowed" heads) := by
    simp [downgradeParse, hrange]
  refine ⟨?_, ?_, ?_, ?_, ?_, ?_, ?_, ?_⟩
  · simp [agentUpgrade, hpU]
  · simp [moonshineUpgrade, hpU]
  · simp [agentDowngrade, hpD]
  · simp [moonshineDowngrade, hpD]
  all_goals
    cases hsp : pySplitUnpack2 rev with
    | none =>
      simp [agentUpgrade, moonshineUpgrade, agentDowngrade, moonshineDowngrade,
        upgradeParse, downgradeParse, hrange, hsp, raisedObs]
    | some p =>
      obtain ⟨s1, s2⟩ := p
      simp [agentUpgrade, moonshineUpgrade, agentDowngrade, moonshineDowngrade,
        upgradeParse, downgradeParse, agentEnvRun, moonshineEnvRun,
        hrange, hsp]

theorem range_revision_not_allowed_online_witness :
    containsChar "a:b" ':' = true
  ∧ agentUpgrade "a:b" false (fun _ _ heads => heads) [] ["old"]
      = raisedObs "Range revision not allowed" ["old"] :=
  ⟨by decide,
   (range_revision_not_allowed_online "a:b" (fun _ _ heads => heads)
     (fun _ _ heads => heads) [] ["old"] (by decide)).1⟩

end AlembicAgentSpec
